import Mathlib

/-!
# Verification of the STM32G4 uptime library (`stm32g4_uptime.h`)

A shallow embedding of the library's observable state and operations.
The library keeps one piece of software state, the 32-bit counter
`_uptime_ms_cnt`, and reads/writes a handful of memory-mapped 32-bit
peripheral registers (LPTIM1 and RCC).  We model the machine state as a
record of those registers (as `Nat` values, with `% 2^32` wherever the C
code's `uint32_t` arithmetic can overflow) and each C function as a state
transformer.  The interrupt-driven environment is modelled by an explicit
event alphabet (`Ev`) whose interleavings drive the state.
-/

namespace Uptime

/-- `2^32`, the modulus of `uint32_t` arithmetic. -/
def U32 : Nat := 4294967296

/-- `#define LPTIM_ARR_VALUE (1000 - 1)` from the header. -/
def LPTIM_ARR_VALUE : Nat := 1000 - 1

/-- LPTIM `CR` bit 0: `LPTIM_CR_ENABLE`. -/
def LPTIM_CR_ENABLE : Nat := 1

/-- LPTIM `CR` bit 2: `LPTIM_CR_CNTSTRT`. -/
def LPTIM_CR_CNTSTRT : Nat := 4

/-- LPTIM `ICR` bit 0: `LPTIM_ICR_CMPMCF` (compare-match clear flag). -/
def LPTIM_ICR_CMPMCF : Nat := 1

/-- LPTIM `ICR` bit 1: `LPTIM_ICR_ARRMCF` (reload-match clear flag). -/
def LPTIM_ICR_ARRMCF : Nat := 2

/-- LPTIM `IER` bit 1: `LPTIM_IER_ARRMIE` (reload-match interrupt enable). -/
def LPTIM_IER_ARRMIE : Nat := 2

/-- LPTIM `CFGR` prescaler field value `LPTIM_CFGR_PRESC_2` (`0b100 << 9`). -/
def LPTIM_CFGR_PRESC_2 : Nat := 2048

/-- RCC `CR` bit 8: `RCC_CR_HSION`. -/
def RCC_CR_HSION : Nat := 256

/-- RCC `CR` bit 10: `RCC_CR_HSIRDY`. -/
def RCC_CR_HSIRDY : Nat := 1024

/-- RCC `CCIPR` field `RCC_CCIPR_LPTIM1SEL` (bits 19:18). -/
def RCC_CCIPR_LPTIM1SEL : Nat := 786432

/-- RCC `CCIPR` value `RCC_CCIPR_LPTIM1SEL_1` (bit 19). -/
def RCC_CCIPR_LPTIM1SEL_1 : Nat := 524288

/-- RCC `APB1ENR1` bit 31: `RCC_APB1ENR1_LPTIM1EN`. -/
def RCC_APB1ENR1_LPTIM1EN : Nat := 2147483648

/-- RCC `APB1RSTR1` bit 31: `RCC_APB1RSTR1_LPTIM1RST`. -/
def RCC_APB1RSTR1_LPTIM1RST : Nat := 2147483648

/-- Clearing the bits of `mask` in the 32-bit register value `x`:
the effect of C's `x &= ~mask` on a `uint32_t` (the complement is taken
inside the 32-bit word, i.e. against `2^32 - 1`). -/
def clearBits (x mask : Nat) : Nat := x &&& (mask ^^^ (U32 - 1))

/-- The machine state visible to the library: the software counter
`_uptime_ms_cnt` plus the 32-bit peripheral registers it touches.
`lptim_isr` holds the LPTIM status flags; a write to `ICR` clears the
corresponding `ISR` bits.  `nvic_lptim1` is the NVIC enable state of the
LPTIM1 interrupt line. -/
structure MachState where
  ms_cnt : Nat
  lptim_cnt : Nat
  lptim_cr : Nat
  lptim_ier : Nat
  lptim_cfgr : Nat
  lptim_arr : Nat
  lptim_isr : Nat
  rcc_cr : Nat
  rcc_ccipr : Nat
  rcc_apb1enr1 : Nat
  rcc_apb1rstr1 : Nat
  nvic_lptim1 : Bool
  deriving Repr, DecidableEq

/-- `uint32_t millis(void){ return _uptime_ms_cnt; }` -/
def millis (s : MachState) : Nat := s.ms_cnt

/-- `uint32_t micros(void){ return ((_uptime_ms_cnt * 1000UL) + LPTIM1->CNT); }`
The multiplication and the addition are both `uint32_t` operations, so each
is reduced modulo `2^32` in evaluation order. -/
def micros (s : MachState) : Nat :=
  (s.ms_cnt * 1000 % U32 + s.lptim_cnt) % U32

/-- `void LPTIM1_IRQHandler()`: writes `LPTIM_ICR_ARRMCF | LPTIM_ICR_CMPMCF`
to `ICR` (clearing those two status flags) and increments `_uptime_ms_cnt`
(a `uint32_t`, so modulo `2^32`). -/
def LPTIM1_IRQHandler (s : MachState) : MachState :=
  { s with
    lptim_isr := clearBits s.lptim_isr (LPTIM_ICR_ARRMCF ||| LPTIM_ICR_CMPMCF)
    ms_cnt := (s.ms_cnt + 1) % U32 }

/-- First statement of `UPTIME_Reset`: `_uptime_ms_cnt = 0;`. -/
def resetZeroCounter (s : MachState) : MachState := { s with ms_cnt := 0 }

/-- Second statement of `UPTIME_Reset`:
`RCC->APB1RSTR1 |= RCC_APB1RSTR1_LPTIM1RST;` (assert the reset line). -/
def resetAssertLine (s : MachState) : MachState :=
  { s with rcc_apb1rstr1 := s.rcc_apb1rstr1 ||| RCC_APB1RSTR1_LPTIM1RST }

/-- Third statement of `UPTIME_Reset`:
`RCC->APB1RSTR1 &= ~RCC_APB1RSTR1_LPTIM1RST;` (release the reset line). -/
def resetReleaseLine (s : MachState) : MachState :=
  { s with rcc_apb1rstr1 := clearBits s.rcc_apb1rstr1 RCC_APB1RSTR1_LPTIM1RST }

/-- `void UPTIME_Reset(void)`: the three statements above, in program order. -/
def UPTIME_Reset (s : MachState) : MachState :=
  resetReleaseLine (resetAssertLine (resetZeroCounter s))

/-- `void UPTIME_Suspend(void){ LPTIM1->CR &= ~LPTIM_CR_ENABLE; }` -/
def UPTIME_Suspend (s : MachState) : MachState :=
  { s with lptim_cr := clearBits s.lptim_cr LPTIM_CR_ENABLE }

/-- `void UPTIME_Resume(void)`: `CR |= ENABLE` then `CR |= CNTSTRT`. -/
def UPTIME_Resume (s : MachState) : MachState :=
  { s with lptim_cr := (s.lptim_cr ||| LPTIM_CR_ENABLE) ||| LPTIM_CR_CNTSTRT }

/-- Step (b) of `UPTIME_Init`:
`if(!(RCC->CR & RCC_CR_HSION)){ RCC->CR |= RCC_CR_HSION; while(!(RCC->CR & RCC_CR_HSIRDY)); }`.
The busy-wait repeatedly reads the hardware-driven `HSIRDY` flag; `rdy i`
is the value of that flag at the `i`-th read and `fuel` bounds how many
reads we unroll.  The result is `none` when the loop is still spinning
after `fuel` reads (the indefinite block the spec flags as a risk), and
`some s'` when `UPTIME_Init` proceeds past this step, in which case the
exit read saw `HSIRDY` set and the model records both `HSION` and
`HSIRDY` in `CR`.  When `HSION` is already set the whole statement is
skipped and no read of `HSIRDY` happens at all. -/
def hsiEnableStep (fuel : Nat) (rdy : Nat → Bool) (s : MachState) : Option MachState :=
  if s.rcc_cr &&& RCC_CR_HSION = 0 then
    if (List.range fuel).any rdy then
      some { s with rcc_cr := (s.rcc_cr ||| RCC_CR_HSION) ||| RCC_CR_HSIRDY }
    else none
  else some s

/-- `void UPTIME_Init(void)`: `UPTIME_Reset()`, the HSI-enable step, then
`MODIFY_REG(RCC->CCIPR, LPTIM1SEL, LPTIM1SEL_1)`, `APB1ENR1 |= LPTIM1EN`,
`CFGR = PRESC_2`, `IER = ARRMIE`, `CR = ENABLE`, `ARR = LPTIM_ARR_VALUE`,
`CR |= CNTSTRT`, `NVIC_EnableIRQ(LPTIM1_IRQn)`, in program order.
`none` means the HSI busy-wait never finished within `fuel` reads. -/
def UPTIME_Init (fuel : Nat) (rdy : Nat → Bool) (s : MachState) : Option MachState :=
  match hsiEnableStep fuel rdy (UPTIME_Reset s) with
  | none => none
  | some s1 =>
    let s2 := { s1 with
      rcc_ccipr := clearBits s1.rcc_ccipr RCC_CCIPR_LPTIM1SEL ||| RCC_CCIPR_LPTIM1SEL_1 }
    let s3 := { s2 with rcc_apb1enr1 := s2.rcc_apb1enr1 ||| RCC_APB1ENR1_LPTIM1EN }
    let s4 := { s3 with lptim_cfgr := LPTIM_CFGR_PRESC_2 }
    let s5 := { s4 with lptim_ier := LPTIM_IER_ARRMIE }
    let s6 := { s5 with lptim_cr := LPTIM_CR_ENABLE }
    let s7 := { s6 with lptim_arr := LPTIM_ARR_VALUE }
    let s8 := { s7 with lptim_cr := s7.lptim_cr ||| LPTIM_CR_CNTSTRT }
    some { s8 with nvic_lptim1 := true }

/-- `void UPTIME_DeInit(void)`: `NVIC_DisableIRQ`, `APB1ENR1 &= ~LPTIM1EN`,
then `UPTIME_Reset()`. -/
def UPTIME_DeInit (s : MachState) : MachState :=
  UPTIME_Reset { s with
    nvic_lptim1 := false
    rcc_apb1enr1 := clearBits s.rcc_apb1enr1 RCC_APB1ENR1_LPTIM1EN }

/-! ## The interrupt-driven environment

Normal-context code can be preempted at any instruction boundary by the
LPTIM1 reload interrupt, and the hardware counter `LPTIM1->CNT` advances
on its own.  We model what can happen between any two instructions of
normal-context code as a list of events: `irq` runs the interrupt handler,
`hw c` lets the free-running hardware counter move to `c` within its
configured range `[0, LPTIM_ARR_VALUE]` (spec §3: the sub-period count
ranges over `[0, reload_value]` with `reload_value = 999`), and `suspend`
and `resume` are the concurrent API calls that do not reset the counter.
`reset` is included so that "no intervening reset" is expressible. -/
inductive Ev where
  | irq : Ev
  | hw : Nat → Ev
  | suspend : Ev
  | resume : Ev
  | reset : Ev
  deriving Repr, DecidableEq

/-- The state transformer of one environment event. -/
def evStep : Ev → MachState → MachState
  | Ev.irq => LPTIM1_IRQHandler
  | Ev.hw c => fun s => { s with lptim_cnt := c % (LPTIM_ARR_VALUE + 1) }
  | Ev.suspend => UPTIME_Suspend
  | Ev.resume => UPTIME_Resume
  | Ev.reset => UPTIME_Reset

/-- Run a list of environment events, oldest first. -/
def run (es : List Ev) (s : MachState) : MachState :=
  match es with
  | [] => s
  | e :: rest => run rest (evStep e s)

/-- The number of interrupt-handler invocations in an event list. -/
def irqCount (es : List Ev) : Nat :=
  match es with
  | [] => 0
  | Ev.irq :: rest => irqCount rest + 1
  | _ :: rest => irqCount rest

/-- Wraparound-safe `uint32_t` subtraction `a - b` (as in
`millis() - start` and `micros() - start` in the delay loops). -/
def u32sub (a b : Nat) : Nat := (a + (U32 - b % U32)) % U32

/-- The continuation condition of `delayMs`'s busy loop,
`millis() - start < ms`, evaluated in the machine state `s` of a poll. -/
def delayMsCont (start ms : Nat) (s : MachState) : Bool :=
  decide (u32sub (millis s) start < ms)

/-- The continuation condition of `delayUs`'s busy loop,
`micros() - start < us`, evaluated in the machine state `s` of a poll. -/
def delayUsCont (start us : Nat) (s : MachState) : Bool :=
  decide (u32sub (micros s) start < us)

/-- The number of iterations a busy loop with continuation condition
`cont` executes when the successive polls observe the given list of
machine states: the length of the longest prefix on which `cont` holds.
The loop exits at the first poll where `cont` is false. -/
def loopIters (cont : MachState → Bool) : List MachState → Nat
  | [] => 0
  | s :: rest => if cont s then loopIters cont rest + 1 else 0

/-- The deterministic simulated-clock harness for `delayMs`: poll `i`
observes state `s` after `i` interrupt-handler ticks, i.e. exactly one
reload interrupt fires between consecutive polls of `millis()`. -/
def tickTrace (s : MachState) : Nat → List MachState
  | 0 => []
  | n + 1 => s :: tickTrace (LPTIM1_IRQHandler s) n

/-! ## Basic lemmas about the environment -/

theorem U32_pos : 0 < U32 := by decide

/-- No event changes `ms_cnt` except `irq` (which steps it mod `2^32`)
and `reset` (which zeroes it). -/
theorem evStep_ms_cnt (e : Ev) (s : MachState) :
    (evStep e s).ms_cnt =
      (match e with
       | Ev.irq => (s.ms_cnt + 1) % U32
       | Ev.reset => 0
       | _ => s.ms_cnt) := by
  cases e <;> rfl

/-- Running a reset-free event list advances `ms_cnt` by the number of
interrupt events, modulo `2^32`. -/
theorem run_ms_cnt (es : List Ev) (s : MachState)
    (hs : s.ms_cnt < U32) (hr : Ev.reset ∉ es) :
    (run es s).ms_cnt = (s.ms_cnt + irqCount es) % U32 := by
  induction es generalizing s with
  | nil =>
    simp [run, irqCount, Nat.mod_eq_of_lt hs]
  | cons e rest ih =>
    have hr' : Ev.reset ∉ rest := fun h => hr (List.mem_cons_of_mem _ h)
    have hne : e ≠ Ev.reset := fun h => hr (h ▸ List.mem_cons_self _ _)
    cases e with
    | irq =>
      have h1 : (evStep Ev.irq s).ms_cnt = (s.ms_cnt + 1) % U32 := rfl
      have h2 : (evStep Ev.irq s).ms_cnt < U32 :=
        h1 ▸ Nat.mod_lt _ U32_pos
      have := ih (evStep Ev.irq s) h2 hr'
      rw [run, this, h1, Nat.mod_add_mod]
      show (s.ms_cnt + 1 + irqCount rest) % U32
          = (s.ms_cnt + (irqCount rest + 1)) % U32
      congr 1
      omega
    | hw c =>
      have h1 : (evStep (Ev.hw c) s).ms_cnt = s.ms_cnt := rfl
      have := ih (evStep (Ev.hw c) s) (h1 ▸ hs) hr'
      rw [run, this, h1]
      rfl
    | suspend =>
      have h1 : (evStep Ev.suspend s).ms_cnt = s.ms_cnt := rfl
      have := ih (evStep Ev.suspend s) (h1 ▸ hs) hr'
      rw [run, this, h1]
      rfl
    | resume =>
      have h1 : (evStep Ev.resume s).ms_cnt = s.ms_cnt := rfl
      have := ih (evStep Ev.resume s) (h1 ▸ hs) hr'
      rw [run, this, h1]
      rfl
    | reset => exact absurd rfl hne

/-- Every event keeps the hardware sub-period count within its
configured range `[0, LPTIM_ARR_VALUE]`. -/
theorem run_cnt_le (es : List Ev) (s : MachState)
    (hc : s.lptim_cnt ≤ LPTIM_ARR_VALUE) :
    (run es s).lptim_cnt ≤ LPTIM_ARR_VALUE := by
  induction es generalizing s with
  | nil => exact hc
  | cons e rest ih =>
    rw [run]
    apply ih
    cases e with
    | hw c =>
      show c % (LPTIM_ARR_VALUE + 1) ≤ LPTIM_ARR_VALUE
      have h0 : 0 < LPTIM_ARR_VALUE + 1 := Nat.succ_pos _
      have := Nat.mod_lt c h0
      omega
    | irq => exact hc
    | suspend => exact hc
    | resume => exact hc
    | reset => exact hc

/-- Unsigned 32-bit subtraction recovers the summand:
`(b + k) mod 2^32 - b = k mod 2^32` in `uint32_t` arithmetic. -/
theorem u32sub_add (b k : Nat) :
    u32sub ((b + k) % U32) b = k % U32 := by
  simp only [u32sub, U32]
  omega

/-! ## C1: micros() = ms_cnt * 1000 + CNT, modulo 2^32 -/

/-- C1: for every state, `micros()` returns
`milliseconds_counter * 1000 + hardware_subcount` reduced modulo `2^32`,
where the sub-count is the live `LPTIM1->CNT` value of the state at call
time.  (The per-operation `uint32_t` reductions of the C expression
collapse to a single final reduction.) -/
theorem micros_spec (s : MachState) :
    micros s = (millis s * 1000 + s.lptim_cnt) % U32 := by
  simp [micros, millis, Nat.mod_add_mod]

/-! ## C10: one handler tick advances the microsecond base by exactly 1000 -/

/-- C10: the microsecond base is wrap-continuous across the millisecond
counter's wraparound: one interrupt-handler tick advances `micros()` by
exactly `1000` modulo `2^32`, advances the value `millis() * 1000 mod 2^32`
by exactly `1000`, and the wraparound-safe subtraction used by
`delayUs` sees that advance as exactly `1000` — the `uint32` overflow of
the multiplication introduces no discontinuity. -/
theorem micros_tick_continuous (s : MachState) :
    micros (LPTIM1_IRQHandler s) = (micros s + 1000) % U32
    ∧ (millis (LPTIM1_IRQHandler s) * 1000) % U32
        = (millis s * 1000 + 1000) % U32
    ∧ u32sub (micros (LPTIM1_IRQHandler s)) (micros s) = 1000 := by
  have h1 : micros (LPTIM1_IRQHandler s) = (micros s + 1000) % U32 := by
    simp only [micros, LPTIM1_IRQHandler, U32]
    omega
  refine ⟨h1, ?_, ?_⟩
  · simp only [millis, LPTIM1_IRQHandler, U32]
    omega
  · have := u32sub_add (micros s) 1000
    rw [h1, this]
    decide

/-! ## Bit-level characterization of register writes -/

/-- Bitwise reading of `clearBits`: bit `i` of `x &= ~mask` (32-bit) is
bit `i` of `x` unless `i` is a mask bit or lies outside the 32-bit word. -/
theorem clearBits_testBit (x m i : Nat) :
    (clearBits x m).testBit i
      = (x.testBit i && Bool.xor (m.testBit i) (decide (i < 32))) := by
  have h : U32 - 1 = 2 ^ 32 - 1 := by decide
  rw [clearBits, Nat.testBit_and, Nat.testBit_xor, h,
    Nat.testBit_two_pow_sub_one]

/-- Bits at or above position 32 of a `uint32_t` value are clear. -/
theorem testBit_high (x i : Nat) (hx : x < U32) (hi : 32 ≤ i) :
    x.testBit i = false := by
  apply Nat.testBit_lt_two_pow
  calc x < U32 := hx
    _ = 2 ^ 32 := by decide
    _ ≤ 2 ^ i := Nat.pow_le_pow_right (by decide) hi

/-- A shared concrete machine state used to instantiate the theorems. -/
def sampleState : MachState where
  ms_cnt := 5
  lptim_cnt := 42
  lptim_cr := 7
  lptim_ier := 2
  lptim_cfgr := 2048
  lptim_arr := 999
  lptim_isr := 11
  rcc_cr := 1280
  rcc_ccipr := 524288
  rcc_apb1enr1 := 2147483648
  rcc_apb1rstr1 := 0
  nvic_lptim1 := true

/-! ## C3: the interrupt handler's exact effect and tick correctness -/

/-- C3: each handler invocation increments the millisecond counter by
exactly 1 (mod `2^32`); it clears exactly the compare-match (bit 0) and
reload-match (bit 1) pending status flags, leaving every other status bit
unchanged; it mutates no other state; and after exactly `N`
reload-interrupt events following a reset (with no further reset),
`millis()` returns `N mod 2^32`. -/
theorem handler_spec (s : MachState) (hisr : s.lptim_isr < U32) :
    ((LPTIM1_IRQHandler s).ms_cnt = (s.ms_cnt + 1) % U32)
    ∧ ((LPTIM1_IRQHandler s).lptim_isr.testBit 0 = false
       ∧ (LPTIM1_IRQHandler s).lptim_isr.testBit 1 = false
       ∧ ∀ i, 2 ≤ i →
           (LPTIM1_IRQHandler s).lptim_isr.testBit i = s.lptim_isr.testBit i)
    ∧ ((LPTIM1_IRQHandler s).lptim_cnt = s.lptim_cnt
       ∧ (LPTIM1_IRQHandler s).lptim_cr = s.lptim_cr
       ∧ (LPTIM1_IRQHandler s).lptim_ier = s.lptim_ier
       ∧ (LPTIM1_IRQHandler s).lptim_cfgr = s.lptim_cfgr
       ∧ (LPTIM1_IRQHandler s).lptim_arr = s.lptim_arr
       ∧ (LPTIM1_IRQHandler s).rcc_cr = s.rcc_cr
       ∧ (LPTIM1_IRQHandler s).rcc_ccipr = s.rcc_ccipr
       ∧ (LPTIM1_IRQHandler s).rcc_apb1enr1 = s.rcc_apb1enr1
       ∧ (LPTIM1_IRQHandler s).rcc_apb1rstr1 = s.rcc_apb1rstr1
       ∧ (LPTIM1_IRQHandler s).nvic_lptim1 = s.nvic_lptim1)
    ∧ (∀ es, Ev.reset ∉ es →
         millis (run es (UPTIME_Reset s)) = irqCount es % U32) := by
  refine ⟨rfl, ⟨?_, ?_, ?_⟩,
    ⟨rfl, rfl, rfl, rfl, rfl, rfl, rfl, rfl, rfl, rfl⟩, ?_⟩
  · show (clearBits s.lptim_isr (LPTIM_ICR_ARRMCF ||| LPTIM_ICR_CMPMCF)).testBit 0
        = false
    rw [clearBits_testBit]
    have hm : ((LPTIM_ICR_ARRMCF ||| LPTIM_ICR_CMPMCF : Nat)).testBit 0 = true := by
      decide
    simp [hm]
  · show (clearBits s.lptim_isr (LPTIM_ICR_ARRMCF ||| LPTIM_ICR_CMPMCF)).testBit 1
        = false
    rw [clearBits_testBit]
    have hm : ((LPTIM_ICR_ARRMCF ||| LPTIM_ICR_CMPMCF : Nat)).testBit 1 = true := by
      decide
    simp [hm]
  · intro i hi
    show (clearBits s.lptim_isr (LPTIM_ICR_ARRMCF ||| LPTIM_ICR_CMPMCF)).testBit i
        = s.lptim_isr.testBit i
    rw [clearBits_testBit]
    by_cases h32 : i < 32
    · have hm : ((LPTIM_ICR_ARRMCF ||| LPTIM_ICR_CMPMCF : Nat)).testBit i = false := by
        apply Nat.testBit_lt_two_pow
        have h3 : (LPTIM_ICR_ARRMCF ||| LPTIM_ICR_CMPMCF : Nat) = 3 := by decide
        rw [h3]
        calc (3 : Nat) < 2 ^ 2 := by decide
          _ ≤ 2 ^ i := Nat.pow_le_pow_right (by decide) hi
      simp [hm, h32]
    · have hx : s.lptim_isr.testBit i = false :=
        testBit_high _ _ hisr (by omega)
      simp [hx]
  · intro es hres
    have h0 : (UPTIME_Reset s).ms_cnt = 0 := rfl
    have hrun := run_ms_cnt es (UPTIME_Reset s) (by rw [h0]; decide) hres
    show (run es (UPTIME_Reset s)).ms_cnt = irqCount es % U32
    rw [hrun, h0, Nat.zero_add]

/-- Witness for C3 at the concrete state `sampleState`: the hypothesis
`lptim_isr < 2^32` holds there, the reload-match flag is cleared, and two
interrupts after a reset give `millis() = 2`. -/
theorem handler_spec_witness :
    sampleState.lptim_isr < U32
    ∧ (LPTIM1_IRQHandler sampleState).lptim_isr.testBit 1 = false
    ∧ millis (run [Ev.irq, Ev.hw 3, Ev.irq] (UPTIME_Reset sampleState))
        = 2 % U32 := by
  have h := handler_spec sampleState (by decide)
  exact ⟨by decide, h.2.1.2.1, h.2.2.2 [Ev.irq, Ev.hw 3, Ev.irq] (by decide)⟩

/-! ## C4: monotonicity of millis() under reset-free execution -/

/-- C4: between two reads of `millis()` separated by any reset-free
activity, the counter has advanced by exactly the number of handler
invocations modulo `2^32`; as long as fewer than `2^32` ticks elapsed the
wraparound-safe difference of the two reads recovers that number exactly
(accounting for at most one wraparound), and when no wraparound occurs
the later read is `≥` the earlier one. -/
theorem millis_monotone (s : MachState) (hs : s.ms_cnt < U32)
    (es : List Ev) (hres : Ev.reset ∉ es) :
    millis (run es s) = (millis s + irqCount es) % U32
    ∧ (irqCount es < U32 →
        u32sub (millis (run es s)) (millis s) = irqCount es)
    ∧ (millis s + irqCount es < U32 → millis s ≤ millis (run es s)) := by
  have hm := run_ms_cnt es s hs hres
  have h1 : millis (run es s) = (millis s + irqCount es) % U32 := hm
  refine ⟨h1, ?_, ?_⟩
  · intro hk
    rw [h1, u32sub_add, Nat.mod_eq_of_lt hk]
  · intro hlt
    rw [h1, Nat.mod_eq_of_lt hlt]
    exact Nat.le_add_right _ _

/-- Witness for C4: starting from `sampleState` (counter 5), two handler
ticks interleaved with hardware movement yield `millis() = 7`, a
wraparound-safe difference of 2, and a non-decreasing pair of reads. -/
theorem millis_monotone_witness :
    sampleState.ms_cnt < U32
    ∧ Ev.reset ∉ [Ev.irq, Ev.hw 7, Ev.irq]
    ∧ irqCount [Ev.irq, Ev.hw 7, Ev.irq] < U32
    ∧ u32sub (millis (run [Ev.irq, Ev.hw 7, Ev.irq] sampleState))
        (millis sampleState) = irqCount [Ev.irq, Ev.hw 7, Ev.irq]
    ∧ millis sampleState ≤ millis (run [Ev.irq, Ev.hw 7, Ev.irq] sampleState) := by
  have h := millis_monotone sampleState (by decide) [Ev.irq, Ev.hw 7, Ev.irq]
    (by decide)
  exact ⟨by decide, by decide, by decide, h.2.1 (by decide), h.2.2 (by decide)⟩

/-! ## C5: delayMs is exact and wraparound-safe -/

/-- The busy loop of `delayMs`, polled on the deterministic one-tick-per-
poll harness, runs for exactly `min (d - k) n` further iterations when `k`
ticks have already elapsed since `start`. -/
theorem loopIters_tickTrace (d start : Nat) (hd : d < U32) :
    ∀ (n k : Nat) (s : MachState), s.ms_cnt = (start + k) % U32 → k ≤ d →
      loopIters (delayMsCont start d) (tickTrace s n) = min (d - k) n := by
  intro n
  induction n with
  | zero => intro k s _ _; simp [tickTrace, loopIters]
  | succ n ih =>
    intro k s hk hkd
    have hcond : delayMsCont start d s = decide (k < d) := by
      rw [delayMsCont, millis, hk, u32sub_add,
        Nat.mod_eq_of_lt (Nat.lt_of_le_of_lt hkd hd)]
    rw [tickTrace, loopIters, hcond]
    by_cases hlt : k < d
    · have hnext : (LPTIM1_IRQHandler s).ms_cnt = (start + (k + 1)) % U32 := by
        show (s.ms_cnt + 1) % U32 = (start + (k + 1)) % U32
        rw [hk, Nat.mod_add_mod]
        simp only [U32]
        omega
      rw [ih (k + 1) (LPTIM1_IRQHandler s) hnext hlt]
      have hnum : decide (k < d) = true := by simp [hlt]
      rw [hnum, if_pos rfl]
      omega
    · have hk_eq : k = d := by omega
      simp [hlt, hk_eq]

/-- C5: `delayMs(d)` captures `start = millis()` and its loop condition
`millis() - start < d` (wraparound-safe unsigned subtraction) first fails
exactly when `d` handler ticks have elapsed — for any reset-free
interleaving and any start value, including starts adjacent to the `2^32`
wrap point; on the deterministic one-tick-per-poll harness the loop runs
exactly `d` iterations. -/
theorem delayMs_spec (s : MachState) (hs : s.ms_cnt < U32)
    (d : Nat) (hd : d < U32) :
    (∀ es, Ev.reset ∉ es → irqCount es < U32 →
       (delayMsCont (millis s) d (run es s) = false ↔ d ≤ irqCount es))
    ∧ (∀ n, d ≤ n →
       loopIters (delayMsCont (millis s) d) (tickTrace s n) = d) := by
  constructor
  · intro es hres hk
    have h := (millis_monotone s hs es hres).2.1 hk
    rw [delayMsCont, h]
    simp
  · intro n hn
    have h0 : s.ms_cnt = (millis s + 0) % U32 := by
      rw [millis, Nat.add_zero, Nat.mod_eq_of_lt hs]
    rw [loopIters_tickTrace d (millis s) hd n 0 s h0 (Nat.zero_le d)]
    omega

/-- A state whose millisecond counter sits two ticks before the `2^32`
wrap point. -/
def nearWrapState : MachState := { sampleState with ms_cnt := 4294967294 }

/-- Witness for C5 at a start two ticks before the wrap point: with
`d = 5` the loop condition fails after 5 ticks (wrapping in between), and
the deterministic harness runs exactly 5 iterations. -/
theorem delayMs_spec_witness :
    nearWrapState.ms_cnt < U32
    ∧ (5 : Nat) < U32
    ∧ Ev.reset ∉ [Ev.irq, Ev.irq, Ev.irq, Ev.irq, Ev.irq]
    ∧ irqCount [Ev.irq, Ev.irq, Ev.irq, Ev.irq, Ev.irq] < U32
    ∧ (delayMsCont (millis nearWrapState) 5
        (run [Ev.irq, Ev.irq, Ev.irq, Ev.irq, Ev.irq] nearWrapState) = false
       ↔ 5 ≤ irqCount [Ev.irq, Ev.irq, Ev.irq, Ev.irq, Ev.irq])
    ∧ loopIters (delayMsCont (millis nearWrapState) 5)
        (tickTrace nearWrapState 8) = 5 := by
  have h := delayMs_spec nearWrapState (by decide) 5 (by decide)
  exact ⟨by decide, by decide, by decide, by decide,
    h.1 [Ev.irq, Ev.irq, Ev.irq, Ev.irq, Ev.irq] (by decide) (by decide),
    h.2 8 (by decide)⟩

/-! ## C9: zero-duration delays never block -/

/-- C9: with duration 0 the loop conditions of `delayMs` and `delayUs`
(`millis() - start < 0`, `micros() - start < 0` — unsigned comparisons
against zero) are false at their very first evaluation in every state, so
both loops execute zero iterations on every possible poll sequence. -/
theorem delay_zero_spec (start : Nat) (s : MachState)
    (polls : List MachState) :
    delayMsCont start 0 s = false
    ∧ delayUsCont start 0 s = false
    ∧ loopIters (delayMsCont start 0) polls = 0
    ∧ loopIters (delayUsCont start 0) polls = 0 := by
  refine ⟨by simp [delayMsCont], by simp [delayUsCont], ?_, ?_⟩
  · cases polls with
    | nil => rfl
    | cons p rest => simp [loopIters, delayMsCont]
  · cases polls with
    | nil => rfl
    | cons p rest => simp [loopIters, delayUsCont]

/-! ## C2: the non-atomic micros() read is off by at most one period -/

/-- The value produced by a torn `micros()` call: `_uptime_ms_cnt` was
read in state `s0`, the environment then ran, and `LPTIM1->CNT` was read
in state `s1` (an atomic call is `tornMicros s s`, and indeed
`micros s = tornMicros s s` by definition). -/
def tornMicros (s0 s1 : MachState) : Nat :=
  (s0.ms_cnt * 1000 % U32 + s1.lptim_cnt) % U32

/-- C2: even when the reload interrupt preempts `micros()` between its
two reads (at most one reload event can fall inside the microscopic read
window of the 1 ms cadence), the returned value is within one period
(1000) of `millis() * 1000` taken when the call completes: the
wraparound-safe distance between the two is at most 1000 in one of the
two directions. -/
theorem micros_race_bound (s0 : MachState) (hs : s0.ms_cnt < U32)
    (hc : s0.lptim_cnt ≤ LPTIM_ARR_VALUE) (es : List Ev)
    (hres : Ev.reset ∉ es) (hk : irqCount es ≤ 1) :
    u32sub (tornMicros s0 (run es s0))
        (millis (run es s0) * 1000 % U32) ≤ 1000
    ∨ u32sub (millis (run es s0) * 1000 % U32)
        (tornMicros s0 (run es s0)) ≤ 1000 := by
  have hm : (run es s0).ms_cnt = (s0.ms_cnt + irqCount es) % U32 :=
    run_ms_cnt es s0 hs hres
  have hcc : (run es s0).lptim_cnt ≤ LPTIM_ARR_VALUE := run_cnt_le es s0 hc
  rw [tornMicros, millis, u32sub, u32sub, hm]
  rw [LPTIM_ARR_VALUE] at hcc
  rcases Nat.le_one_iff_eq_zero_or_eq_one.mp hk with h0 | h1
  · rw [h0]
    simp only [U32] at *
    omega
  · rw [h1]
    simp only [U32] at *
    omega

/-- Witness for C2: from `sampleState` (counter 5, sub-count 42), one
interrupt between the two reads gives a torn value 5042 against a final
base of 6000 — within one period. -/
theorem micros_race_bound_witness :
    sampleState.ms_cnt < U32
    ∧ sampleState.lptim_cnt ≤ LPTIM_ARR_VALUE
    ∧ Ev.reset ∉ [Ev.irq]
    ∧ irqCount [Ev.irq] ≤ 1
    ∧ (u32sub (tornMicros sampleState (run [Ev.irq] sampleState))
        (millis (run [Ev.irq] sampleState) * 1000 % U32) ≤ 1000
      ∨ u32sub (millis (run [Ev.irq] sampleState) * 1000 % U32)
        (tornMicros sampleState (run [Ev.irq] sampleState)) ≤ 1000) := by
  exact ⟨by decide, by decide, by decide, by decide,
    micros_race_bound sampleState (by decide) (by decide) [Ev.irq]
      (by decide) (by decide)⟩

/-! ## C7: reset zeroes the counter, then pulses the reset line -/

/-- C7: `UPTIME_Reset` is exactly the sequence "zero the millisecond
counter, assert the LPTIM1 reset line (bit 31 of `APB1RSTR1`), release
it": the counter is already 0 before the line is touched, the line is
high after the assert write and low at completion; `millis()` is 0 after
a reset from any state (in particular after any run of `N` ticks), a
reset with the counter already 0 leaves it at 0, and the next interrupt
after a reset makes `millis()` return 1. -/
theorem reset_spec (s : MachState) :
    UPTIME_Reset s = resetReleaseLine (resetAssertLine (resetZeroCounter s))
    ∧ (resetZeroCounter s).ms_cnt = 0
    ∧ (resetAssertLine (resetZeroCounter s)).ms_cnt = 0
    ∧ ((resetAssertLine (resetZeroCounter s)).rcc_apb1rstr1).testBit 31 = true
    ∧ ((UPTIME_Reset s).rcc_apb1rstr1).testBit 31 = false
    ∧ millis (UPTIME_Reset s) = 0
    ∧ (millis s = 0 → millis (UPTIME_Reset s) = millis s)
    ∧ millis (LPTIM1_IRQHandler (UPTIME_Reset s)) = 1
    ∧ (∀ es, millis (UPTIME_Reset (run es s)) = 0) := by
  refine ⟨rfl, rfl, rfl, ?_, ?_, rfl, ?_, ?_, fun es => rfl⟩
  · show ((resetZeroCounter s).rcc_apb1rstr1 ||| RCC_APB1RSTR1_LPTIM1RST).testBit 31
        = true
    rw [Nat.testBit_or]
    have h31 : (RCC_APB1RSTR1_LPTIM1RST : Nat).testBit 31 = true := by decide
    simp [h31]
  · show (clearBits (resetAssertLine (resetZeroCounter s)).rcc_apb1rstr1
        RCC_APB1RSTR1_LPTIM1RST).testBit 31 = false
    rw [clearBits_testBit]
    have h31 : (RCC_APB1RSTR1_LPTIM1RST : Nat).testBit 31 = true := by decide
    simp [h31]
  · intro h0
    rw [h0]
    rfl
  · show ((UPTIME_Reset s).ms_cnt + 1) % U32 = 1
    rfl

/-- A sample state whose millisecond counter is already zero. -/
def zeroCntState : MachState := { sampleState with ms_cnt := 0 }

/-- Witness for C7 at `zeroCntState`: resetting with the counter already
0 leaves `millis()` unchanged at 0, the reset line is released at
completion, and the next interrupt yields 1. -/
theorem reset_spec_witness :
    millis zeroCntState = 0
    ∧ millis (UPTIME_Reset zeroCntState) = millis zeroCntState
    ∧ ((UPTIME_Reset zeroCntState).rcc_apb1rstr1).testBit 31 = false
    ∧ millis (LPTIM1_IRQHandler (UPTIME_Reset zeroCntState)) = 1 := by
  have h := reset_spec zeroCntState
  exact ⟨by decide, h.2.2.2.2.2.2.1 (by decide), h.2.2.2.2.1, h.2.2.2.2.2.2.2.1⟩

/-! ## C8: suspend/resume touch only the CR enable/start bits -/

/-- C8: `UPTIME_Suspend` clears exactly bit 0 (`ENABLE`) of `LPTIM1->CR`
and `UPTIME_Resume` sets exactly bits 0 (`ENABLE`) and 2 (`CNTSTRT`);
every other bit of `CR`, every other register, and in particular the
millisecond counter are untouched, so `millis()` reads the same value
immediately before and after either operation. -/
theorem suspend_resume_spec (s : MachState) (hcr : s.lptim_cr < U32) :
    (millis (UPTIME_Suspend s) = millis s
     ∧ millis (UPTIME_Resume s) = millis s)
    ∧ ((UPTIME_Suspend s).ms_cnt = s.ms_cnt
       ∧ (UPTIME_Suspend s).lptim_cnt = s.lptim_cnt
       ∧ (UPTIME_Suspend s).lptim_ier = s.lptim_ier
       ∧ (UPTIME_Suspend s).lptim_cfgr = s.lptim_cfgr
       ∧ (UPTIME_Suspend s).lptim_arr = s.lptim_arr
       ∧ (UPTIME_Suspend s).lptim_isr = s.lptim_isr
       ∧ (UPTIME_Suspend s).rcc_cr = s.rcc_cr
       ∧ (UPTIME_Suspend s).rcc_ccipr = s.rcc_ccipr
       ∧ (UPTIME_Suspend s).rcc_apb1enr1 = s.rcc_apb1enr1
       ∧ (UPTIME_Suspend s).rcc_apb1rstr1 = s.rcc_apb1rstr1
       ∧ (UPTIME_Suspend s).nvic_lptim1 = s.nvic_lptim1)
    ∧ ((UPTIME_Resume s).ms_cnt = s.ms_cnt
       ∧ (UPTIME_Resume s).lptim_cnt = s.lptim_cnt
       ∧ (UPTIME_Resume s).lptim_ier = s.lptim_ier
       ∧ (UPTIME_Resume s).lptim_cfgr = s.lptim_cfgr
       ∧ (UPTIME_Resume s).lptim_arr = s.lptim_arr
       ∧ (UPTIME_Resume s).lptim_isr = s.lptim_isr
       ∧ (UPTIME_Resume s).rcc_cr = s.rcc_cr
       ∧ (UPTIME_Resume s).rcc_ccipr = s.rcc_ccipr
       ∧ (UPTIME_Resume s).rcc_apb1enr1 = s.rcc_apb1enr1
       ∧ (UPTIME_Resume s).rcc_apb1rstr1 = s.rcc_apb1rstr1
       ∧ (UPTIME_Resume s).nvic_lptim1 = s.nvic_lptim1)
    ∧ ((UPTIME_Suspend s).lptim_cr.testBit 0 = false
       ∧ ∀ i, i ≠ 0 →
           (UPTIME_Suspend s).lptim_cr.testBit i = s.lptim_cr.testBit i)
    ∧ ((UPTIME_Resume s).lptim_cr.testBit 0 = true
       ∧ (UPTIME_Resume s).lptim_cr.testBit 2 = true
       ∧ ∀ i, i ≠ 0 → i ≠ 2 →
           (UPTIME_Resume s).lptim_cr.testBit i = s.lptim_cr.testBit i) := by
  refine ⟨⟨rfl, rfl⟩,
    ⟨rfl, rfl, rfl, rfl, rfl, rfl, rfl, rfl, rfl, rfl, rfl⟩,
    ⟨rfl, rfl, rfl, rfl, rfl, rfl, rfl, rfl, rfl, rfl, rfl⟩,
    ⟨?_, ?_⟩, ⟨?_, ?_, ?_⟩⟩
  · show (clearBits s.lptim_cr LPTIM_CR_ENABLE).testBit 0 = false
    rw [clearBits_testBit]
    have h1 : (LPTIM_CR_ENABLE : Nat).testBit 0 = true := by decide
    simp [h1]
  · intro i hi
    show (clearBits s.lptim_cr LPTIM_CR_ENABLE).testBit i = s.lptim_cr.testBit i
    rw [clearBits_testBit]
    by_cases h32 : i < 32
    · have hm : (LPTIM_CR_ENABLE : Nat).testBit i = false := by
        apply Nat.testBit_lt_two_pow
        show (1 : Nat) < 2 ^ i
        calc (1 : Nat) < 2 ^ 1 := by decide
          _ ≤ 2 ^ i := Nat.pow_le_pow_right (by decide) (by omega)
      simp [hm, h32]
    · have hx : s.lptim_cr.testBit i = false :=
        testBit_high _ _ hcr (by omega)
      simp [hx]
  · show ((s.lptim_cr ||| LPTIM_CR_ENABLE) ||| LPTIM_CR_CNTSTRT).testBit 0 = true
    rw [Nat.testBit_or, Nat.testBit_or]
    have h1 : (LPTIM_CR_ENABLE : Nat).testBit 0 = true := by decide
    simp [h1]
  · show ((s.lptim_cr ||| LPTIM_CR_ENABLE) ||| LPTIM_CR_CNTSTRT).testBit 2 = true
    rw [Nat.testBit_or, Nat.testBit_or]
    have h4 : (LPTIM_CR_CNTSTRT : Nat).testBit 2 = true := by decide
    simp [h4]
  · intro i hi0 hi2
    show ((s.lptim_cr ||| LPTIM_CR_ENABLE) ||| LPTIM_CR_CNTSTRT).testBit i
        = s.lptim_cr.testBit i
    rw [Nat.testBit_or, Nat.testBit_or]
    have h1 : (LPTIM_CR_ENABLE : Nat).testBit i = false := by
      show ((2 ^ 0 : Nat)).testBit i = false
      exact Nat.testBit_two_pow_of_ne (fun h => hi0 h.symm)
    have h4 : (LPTIM_CR_CNTSTRT : Nat).testBit i = false := by
      show ((2 ^ 2 : Nat)).testBit i = false
      exact Nat.testBit_two_pow_of_ne (fun h => hi2 h.symm)
    simp [h1, h4]

/-- Witness for C8 at `sampleState` (its `CR` is 7, a 32-bit value):
`millis()` is unchanged by both operations, suspend clears the enable
bit, resume sets enable and counter-start, and bit 1 of `CR` survives
both. -/
theorem suspend_resume_spec_witness :
    sampleState.lptim_cr < U32
    ∧ millis (UPTIME_Suspend sampleState) = millis sampleState
    ∧ millis (UPTIME_Resume sampleState) = millis sampleState
    ∧ (UPTIME_Suspend sampleState).lptim_cr.testBit 0 = false
    ∧ (UPTIME_Suspend sampleState).lptim_cr.testBit 1
        = sampleState.lptim_cr.testBit 1
    ∧ (UPTIME_Resume sampleState).lptim_cr.testBit 0 = true
    ∧ (UPTIME_Resume sampleState).lptim_cr.testBit 2 = true
    ∧ (UPTIME_Resume sampleState).lptim_cr.testBit 1
        = sampleState.lptim_cr.testBit 1 := by
  have h := suspend_resume_spec sampleState (by decide)
  exact ⟨by decide, h.1.1, h.1.2, h.2.2.2.1.1,
    h.2.2.2.1.2 1 (by decide),
    h.2.2.2.2.1, h.2.2.2.2.2.1,
    h.2.2.2.2.2.2 1 (by decide) (by decide)⟩

/-! ## C6: does UPTIME_Init always observe HSIRDY before proceeding? -/

/-- A state in which `HSION` is already set but `HSIRDY` is still clear
(e.g. the oscillator was switched on by earlier boot code and has not yet
stabilized). -/
def hsiOnNotReadyState : MachState := { sampleState with rcc_cr := 256 }

/-- A state in which `HSION` (and everything else in `RCC->CR`) is clear. -/
def hsiOffState : MachState := { sampleState with rcc_cr := 0 }

/-- A ready-flag trace on which `HSIRDY` reads as set from the second
poll on. -/
def rdySecondPoll : Nat → Bool := fun i => decide (i = 1)

/-- Counterexample to C6 as stated: it is not true that for every initial
hardware state an `UPTIME_Init` that proceeds past the oscillator step
has read the ready flag as true.  From `hsiOnNotReadyState` (`HSION`
already set, `HSIRDY` never true) the `if(!(RCC->CR & RCC_CR_HSION))`
guard skips the busy-wait entirely and initialization completes without a
single read of `HSIRDY`. -/
theorem init_ready_cex :
    ¬ (∀ (s : MachState) (fuel : Nat) (rdy : Nat → Bool),
        UPTIME_Init fuel rdy s ≠ none → ∃ i, rdy i = true) := by
  intro h
  rcases h hsiOnNotReadyState 1 (fun _ => false) (by decide) with ⟨i, hi⟩
  exact absurd hi (by simp)

/-- C6 amended: when the oscillator is not already enabled (`HSION`
clear), `UPTIME_Init` enables it and blocks until a poll reads `HSIRDY`
set, so proceeding past that step guarantees the ready flag was observed
true; when `HSION` is already set, the step is skipped and `UPTIME_Init`
proceeds without reading the ready flag at all. -/
theorem init_ready_amended (fuel : Nat) (rdy : Nat → Bool) (s : MachState) :
    (s.rcc_cr &&& RCC_CR_HSION = 0 →
       UPTIME_Init fuel rdy s ≠ none → ∃ i, i < fuel ∧ rdy i = true)
    ∧ (s.rcc_cr &&& RCC_CR_HSION ≠ 0 →
       UPTIME_Init fuel rdy s ≠ none) := by
  have hres_cr : (UPTIME_Reset s).rcc_cr = s.rcc_cr := rfl
  constructor
  · intro h0 hinit
    by_cases hany : (List.range fuel).any rdy = true
    · rcases List.any_eq_true.mp hany with ⟨i, hmem, hi⟩
      exact ⟨i, List.mem_range.mp hmem, hi⟩
    · exfalso
      apply hinit
      rw [UPTIME_Init]
      have hstep : hsiEnableStep fuel rdy (UPTIME_Reset s) = none := by
        rw [hsiEnableStep, hres_cr, if_pos h0, if_neg hany]
      rw [hstep]
  · intro h1
    rw [UPTIME_Init]
    have hstep : hsiEnableStep fuel rdy (UPTIME_Reset s) = UPTIME_Reset s := by
      rw [hsiEnableStep, hres_cr, if_neg h1]
    rw [hstep]
    simp

/-- Witness for the amended C6: from a state with `HSION` clear and a
trace whose second poll reads ready, a completed `UPTIME_Init` implies a
successful ready read within the unrolled window; and from
`hsiOnNotReadyState` initialization completes regardless of the trace. -/
theorem init_ready_amended_witness :
    (hsiOffState.rcc_cr &&& RCC_CR_HSION = 0
     ∧ UPTIME_Init 3 rdySecondPoll hsiOffState ≠ none
     ∧ ∃ i, i < 3 ∧ rdySecondPoll i = true)
    ∧ (hsiOnNotReadyState.rcc_cr &&& RCC_CR_HSION ≠ 0
       ∧ UPTIME_Init 1 (fun _ => false) hsiOnNotReadyState ≠ none) := by
  constructor
  · exact ⟨by decide, by decide,
      (init_ready_amended 3 rdySecondPoll hsiOffState).1 (by decide) (by decide)⟩
  · exact ⟨by decide,
      (init_ready_amended 1 (fun _ => false) hsiOnNotReadyState).2 (by decide)⟩

end Uptime
